import Mathlib

/-!
Verification development for the quiz-project game server
(`backend/internal/service/game.go` and the packet codec in the
service's net layer).

The Go code is shallowly embedded: the session struct `Game` becomes a
Lean structure, every method becomes a pure function, and the I/O a
method performs (`netService.SendPacket`, `BroadcastPacket`) is
returned as an explicit list of (recipient, packet) messages.  Go `int`
is embedded as `Int`; `1000 / 60` keeps Go's integer division.  The
`entity` package (quiz definitions) is not part of the analysed
sources; its shape is modelled from the spec: a quiz is an ordered
sequence of questions, each question has a time limit and an ordered
list of choices, each choice flagged correct or incorrect.  Connection
handles, UUIDs and the join code play no role in the analysed claims
and are omitted; players are keyed by a numeric id (UUIDs are unique,
so distinct players are assumed to carry distinct ids where relevant).
-/

namespace QuizProj

/-- Modelled from the spec: `entity.QuizChoice` — a choice flagged
correct or incorrect (the `entity` package is not among the analysed
source files). -/
structure QuizChoice where
  correct : Bool
deriving DecidableEq

/-- Modelled from the spec: `entity.QuizQuestion` — a time limit and an
ordered list of choices. -/
structure QuizQuestion where
  time : Int
  choices : List QuizChoice
deriving DecidableEq

/-- Modelled from the spec: `entity.Quiz` — an ordered sequence of
questions. -/
structure Quiz where
  questions : List QuizQuestion
deriving DecidableEq

/-- `service.Player` (game.go).  The websocket connection handle is
represented by the player's numeric id for message routing. -/
structure Player where
  id : Nat
  name : String
  points : Int
  lastAwardedPoints : Int
  answered : Bool
deriving DecidableEq

/-- `service.GameState` (game.go). -/
inductive GameState where
  | LobbyState
  | PlayState
  | IntermissionState
  | RevealState
  | EndState
deriving DecidableEq

/-- `service.LeaderboardEntry` (game.go). -/
structure LeaderboardEntry where
  name : String
  points : Int
deriving DecidableEq

/-- The outbound/unicast packets the session sends (net layer packet
structs referenced from game.go). -/
inductive Packet where
  | changeGameState (state : GameState)
  | leaderboard (points : List LeaderboardEntry)
  | playerReveal (points : Int)
  | tick (t : Int)
  | questionShow (q : QuizQuestion)
  | playerJoin (p : Player)
  | playerDisconnect (pid : Nat)
deriving DecidableEq

/-- A delivery target: the host connection or a player's connection. -/
inductive Recipient where
  | host
  | player (id : Nat)
deriving DecidableEq

/-- One `SendPacket` call: target connection and packet. -/
abbrev Msg := Recipient × Packet

/-- `service.Game` (game.go).  `Id`, `Code`, the connection handles and
the mutex carry no game-logic state and are omitted; the mutex-guarded
transitions are embedded as sequential state transformers. -/
structure Game where
  quiz : Quiz
  currentQuestion : Int
  players : List Player
  ended : Bool
  time : Int
  state : GameState
deriving DecidableEq

namespace Game

/-- `Game.ResetPlayerAnswerStates`. -/
def ResetPlayerAnswerStates (g : Game) : Game :=
  { g with players := g.players.map fun p => { p with answered := false } }

/-- `Game.getAnsweredPlayers`. -/
def getAnsweredPlayers (g : Game) : List Player :=
  g.players.filter fun p => p.answered

/-- `Game.getCurrentQuestion`: `g.Quiz.Questions[g.CurrentQuestion]`.
Go panics on an out-of-range index; the partiality is made explicit
with `Option`. -/
def getCurrentQuestion (g : Game) : Option QuizQuestion :=
  if h : 0 ≤ g.currentQuestion ∧ g.currentQuestion.toNat < g.quiz.questions.length then
    some (g.quiz.questions.get ⟨g.currentQuestion.toNat, h.2⟩)
  else none

/-- `Game.isCorrectChoice`: guard `choiceIndex < 0 || choiceIndex >=
len(choices)` returns `false`, otherwise index into the choice list. -/
def isCorrectChoice (g : Game) (choiceIndex : Int) : Bool :=
  match g.getCurrentQuestion with
  | none => false
  | some q =>
    if h : choiceIndex < 0 ∨ (q.choices.length : Int) ≤ choiceIndex then false
    else (q.choices.get ⟨choiceIndex.toNat, by omega⟩).correct

/-- `Game.getPointsReward`.  `math.Min(4, float64(answered))` is exact
on these small integers; `1000 / 60` is Go integer division (= 16). -/
def getPointsReward (g : Game) : Int :=
  let answered : Int := g.getAnsweredPlayers.length
  let orderReward : Int := 5000 - 1000 * min 4 answered
  let timeReward : Int := g.time * (1000 / 60)
  orderReward + timeReward

/-- The recipient sequence of `Game.BroadcastPacket`: every roster
member in roster order, then the host when included. -/
def broadcastRecipients (g : Game) (includeHost : Bool) : List Recipient :=
  g.players.map (fun p => Recipient.player p.id)
    ++ if includeHost then [Recipient.host] else []

/-- The messages a broadcast emits when every send succeeds.  All
state-machine callers of `BroadcastPacket`/`SendPacket` discard the
returned error, so the state evolution is independent of delivery
failures; this is the send log of the successful-delivery run. -/
def broadcastMsgs (g : Game) (packet : Packet) (includeHost : Bool) : List Msg :=
  (g.broadcastRecipients includeHost).map fun r => (r, packet)

/-- The send loop of `Game.BroadcastPacket` with per-connection
failures made explicit: walks the recipients in order, invoking
`SendPacket` on each; a failing send makes the function return the
error at once.  Result: the recipients on whom `SendPacket` was
invoked, and whether the loop completed without error. -/
def sendAll (fails : Recipient → Bool) : List Recipient → List Recipient × Bool
  | [] => ([], true)
  | r :: rs =>
    if fails r then ([r], false)
    else
      let rest := sendAll fails rs
      (r :: rest.1, rest.2)

/-- `Game.BroadcastPacket` under a given per-connection failure
predicate: players first (roster order), then the host when included;
an error from any send returns immediately. -/
def BroadcastPacket (g : Game) (fails : Recipient → Bool) (includeHost : Bool) :
    List Recipient × Bool :=
  sendAll fails (g.broadcastRecipients includeHost)

/-- `Game.ChangeState`: set the state, broadcast it to players and
host. -/
def ChangeState (g : Game) (s : GameState) : Game × List Msg :=
  let g1 := { g with state := s }
  (g1, g1.broadcastMsgs (Packet.changeGameState s) true)

/-- `Game.Reveal`: timer to 7, zero the last award of every unanswered
player, send each player their own last award, change state to
Reveal. -/
def Reveal (g : Game) : Game × List Msg :=
  let g1 := { g with
    time := 7,
    players := g.players.map fun p : Player =>
      if p.answered then p else { p with lastAwardedPoints := 0 } }
  let revealMsgs : List Msg :=
    g1.players.map fun p : Player =>
      (Recipient.player p.id, Packet.playerReveal p.lastAwardedPoints)
  let st := g1.ChangeState GameState.RevealState
  (st.1, revealMsgs ++ st.2)

/-- The comparison `sort.Slice` sorts by in `getLeaderboard`:
`g.Players[i].Points > g.Players[j].Points`, i.e. the resulting order
is non-increasing in points.  `playerGe a b` holds when `a` may come
before `b`. -/
def playerGe (a b : Player) : Prop := b.points ≤ a.points

instance : DecidableRel playerGe := fun a b =>
  inferInstanceAs (Decidable (b.points ≤ a.points))

instance : IsTotal Player playerGe := ⟨fun a b => le_total b.points a.points⟩

instance : IsTrans Player playerGe := ⟨fun _ _ _ h1 h2 => le_trans h2 h1⟩

/-- The in-place `sort.Slice` call of `getLeaderboard`, embedded as a
deterministic sort producing an order non-increasing in points (Go's
unstable sort produces some such order; the embedding fixes the stable
one). -/
def sortPlayersByPoints (ps : List Player) : List Player :=
  ps.insertionSort playerGe

/-- `Game.getLeaderboard`: sorts `g.Players` in place (the mutated
session is returned alongside the entries), then takes the first
`min(3, len)` players as entries. -/
def getLeaderboard (g : Game) : Game × List LeaderboardEntry :=
  let sorted := sortPlayersByPoints g.players
  let leaderboard := (sorted.take (min 3 sorted.length)).map fun p : Player =>
    { name := p.name, points := p.points : LeaderboardEntry }
  ({ g with players := sorted }, leaderboard)

/-- `Game.Intermission`: timer to 30, state to Intermission, broadcast
the leaderboard (computed after the state broadcast, mutating the
roster order) to players and host. -/
def Intermission (g : Game) : Game × List Msg :=
  let g1 := { g with time := 30 }
  let st := g1.ChangeState GameState.IntermissionState
  let lb := st.1.getLeaderboard
  (lb.1, st.2 ++ lb.1.broadcastMsgs (Packet.leaderboard lb.2) true)

/-- `Game.End`: a no-op when the terminal flag is already set;
otherwise set it, change state to End, broadcast the final leaderboard
to players and host. -/
def End (g : Game) : Game × List Msg :=
  if g.ended then (g, [])
  else
    let g1 := { g with ended := true }
    let st := g1.ChangeState GameState.EndState
    let lb := st.1.getLeaderboard
    (lb.1, st.2 ++ lb.1.broadcastMsgs (Packet.leaderboard lb.2) true)

/-- `Game.NextQuestion`: advance the index; terminate when questions
are exhausted; otherwise reset answer flags, enter Play, load the
question's time limit and show the question to the host.  (Go would
panic were the advanced index still negative; that branch is
unreachable from `Start`.) -/
def NextQuestion (g : Game) : Game × List Msg :=
  let g1 := { g with currentQuestion := g.currentQuestion + 1 }
  if (g1.quiz.questions.length : Int) ≤ g1.currentQuestion then g1.End
  else
    let g2 := g1.ResetPlayerAnswerStates
    let st := g2.ChangeState GameState.PlayState
    match st.1.getCurrentQuestion with
    | some q =>
      let g3 := { st.1 with time := q.time }
      (g3, st.2 ++ [(Recipient.host, Packet.questionShow q)])
    | none => (st.1, st.2)

/-- `Game.Tick`: decrement the timer, send the tick to the host, and on
zero fire the phase transition for the current state. -/
def Tick (g : Game) : Game × List Msg :=
  let g1 := { g with time := g.time - 1 }
  let tickMsg : List Msg := [(Recipient.host, Packet.tick g1.time)]
  if g1.time = 0 then
    match g1.state with
    | GameState.PlayState =>
      let r := g1.Reveal
      (r.1, tickMsg ++ r.2)
    | GameState.RevealState =>
      let r := g1.Intermission
      (r.1, tickMsg ++ r.2)
    | GameState.IntermissionState =>
      let r := g1.NextQuestion
      (r.1, tickMsg ++ r.2)
    | _ => (g1, tickMsg)
  else (g1, tickMsg)

/-- `Game.Skip`: read the current state, force every unanswered player
to 0 points and mark them answered, then run the transition for the
state read. -/
def Skip (g : Game) : Game × List Msg :=
  let currentState := g.state
  let g1 := { g with players := g.players.map fun p =>
    if p.answered then p else { p with lastAwardedPoints := 0, answered := true } }
  match currentState with
  | GameState.PlayState => g1.Reveal
  | GameState.RevealState => g1.Intermission
  | GameState.IntermissionState => g1.NextQuestion
  | _ => (g1, [])

/-- Mutation through the `*Player` pointer handed to
`OnPlayerAnswer`, keyed by the player's (unique) id. -/
def updatePlayer (ps : List Player) (pid : Nat) (f : Player → Player) : List Player :=
  ps.map fun p => if p.id = pid then f p else p

/-- The per-player mutation of the if/else in `OnPlayerAnswer`: a
correct choice stores the reward and adds it to the running total, an
incorrect one stores 0. -/
def answerUpdate (g : Game) (choice : Int) : Player → Player :=
  if g.isCorrectChoice choice then
    fun p => { p with
      lastAwardedPoints := g.getPointsReward,
      points := p.points + g.getPointsReward }
  else
    fun p => { p with lastAwardedPoints := 0 }

/-- `Game.OnPlayerAnswer`: score the submission (the reward is computed
before the player is marked answered), mark the player answered, and
reveal at once when every roster member has answered. -/
def OnPlayerAnswer (g : Game) (choice : Int) (pid : Nat) : Game × List Msg :=
  let g1 := { g with players := updatePlayer g.players pid (g.answerUpdate choice) }
  let g2 := { g1 with players := updatePlayer g1.players pid fun p => { p with answered := true } }
  if g2.getAnsweredPlayers.length = g2.players.length then g2.Reveal else (g2, [])

end Game

/-- The closed set of packet struct types appearing in the service
sources (net layer and game.go). -/
inductive PacketType where
  | ConnectPacket
  | HostGamePacket
  | QuestionShowPacket
  | ChangeGameStatePacket
  | LeaderboardPacket
  | PlayerJoinPacket
  | PlayerDisconnectPacket
  | TickPacket
  | PlayerRevealPacket
deriving DecidableEq

/-- `NetService.packetIdToPacket`: inbound tag table. -/
def packetIdToPacket (packetId : Nat) : Option PacketType :=
  match packetId with
  | 0 => some PacketType.ConnectPacket
  | 1 => some PacketType.HostGamePacket
  | _ => none

/-- `NetService.packetToPacketId`: outbound tag table — the switch
registers `QuestionShowPacket ↦ 2`, `ConnectPacket ↦ 0`,
`HostGamePacket ↦ 1` and errors on every other runtime type. -/
def packetToPacketId (packet : PacketType) : Except String Nat :=
  match packet with
  | PacketType.QuestionShowPacket => Except.ok 2
  | PacketType.ConnectPacket => Except.ok 0
  | PacketType.HostGamePacket => Except.ok 1
  | _ => Except.error "invalid packet type"

/-- `NetService.PacketToBytes`: tag byte followed by the serialized
payload; `json.Marshal` is abstracted as a total serialization
function. -/
def PacketToBytes (marshal : PacketType → List Nat) (packet : PacketType) :
    Except String (List Nat) :=
  match packetToPacketId packet with
  | Except.error _ => Except.error "invalid packet type"
  | Except.ok id => Except.ok (id :: marshal packet)

/-- The reward formula in the spec's words: `max(0, 5000 −
1000×min(4, alreadyAnswered)) + floor(secondsRemaining × 1000/60)`
(stated for comparison with `Game.getPointsReward`). -/
def specRewardFormula (secondsRemaining : Int) (alreadyAnswered : Int) : Int :=
  max 0 (5000 - 1000 * min 4 alreadyAnswered) + (secondsRemaining * 1000) / 60

/-- Recognizer for the final-leaderboard broadcast. -/
def Packet.isLeaderboard : Packet → Bool
  | Packet.leaderboard _ => true
  | _ => false

/-- Strict descent of leaderboard points, as an executable check: each
entry's points are strictly below the previous entry's. -/
def strictlyDescending : List LeaderboardEntry → Bool
  | [] => true
  | [_] => true
  | x :: y :: rest => decide (y.points < x.points) && strictlyDescending (y :: rest)

/-- A one-question quiz whose single choice (index 0) is correct. -/
def oneChoiceQuestion : QuizQuestion := { time := 10, choices := [{ correct := true }] }

/-- Play phase, sole player, 9 seconds remaining, nobody answered yet. -/
def gameC1 : Game :=
  { quiz := { questions := [oneChoiceQuestion] }, currentQuestion := 0,
    players := [{ id := 0, name := "a", points := 0, lastAwardedPoints := 0, answered := false }],
    ended := false, time := 9, state := GameState.PlayState }

/-- Play phase, sole player, 9 seconds remaining, nobody answered yet. -/
def gameC2 : Game :=
  { quiz := { questions := [oneChoiceQuestion] }, currentQuestion := 0,
    players := [{ id := 0, name := "b", points := 0, lastAwardedPoints := 0, answered := false }],
    ended := false, time := 9, state := GameState.PlayState }

/-- A two-player roster for the broadcast counterexample. -/
def gameC3 : Game :=
  { quiz := { questions := [oneChoiceQuestion] }, currentQuestion := 0,
    players := [{ id := 0, name := "a", points := 0, lastAwardedPoints := 0, answered := false },
                { id := 1, name := "b", points := 0, lastAwardedPoints := 0, answered := false }],
    ended := false, time := 9, state := GameState.PlayState }

/-- A failure predicate: only the send to player 0's connection fails. -/
def failsPlayerZero : Recipient → Bool := fun r => decide (r = Recipient.player 0)

/-- Play phase with 1 second left and one unanswered player carrying a
stale nonzero last award. -/
def gameC5 : Game :=
  { quiz := { questions := [oneChoiceQuestion] }, currentQuestion := 0,
    players := [{ id := 0, name := "a", points := 0, lastAwardedPoints := 3, answered := false }],
    ended := false, time := 1, state := GameState.PlayState }

/-- A running two-player session that has not ended. -/
def gameC6 : Game :=
  { quiz := { questions := [oneChoiceQuestion] }, currentQuestion := 0,
    players := [{ id := 0, name := "a", points := 1, lastAwardedPoints := 0, answered := true },
                { id := 1, name := "b", points := 2, lastAwardedPoints := 0, answered := true }],
    ended := false, time := 5, state := GameState.IntermissionState }

/-- The same session with the terminal flag already set. -/
def gameC6e : Game :=
  { quiz := { questions := [oneChoiceQuestion] }, currentQuestion := 0,
    players := [{ id := 0, name := "a", points := 1, lastAwardedPoints := 0, answered := true },
                { id := 1, name := "b", points := 2, lastAwardedPoints := 0, answered := true }],
    ended := true, time := 5, state := GameState.EndState }

/-- Two players tied at 5 points. -/
def gameC7 : Game :=
  { quiz := { questions := [oneChoiceQuestion] }, currentQuestion := 0,
    players := [{ id := 0, name := "a", points := 5, lastAwardedPoints := 0, answered := false },
                { id := 1, name := "b", points := 5, lastAwardedPoints := 0, answered := false }],
    ended := false, time := 9, state := GameState.IntermissionState }

/-- Two players whose roster order (1 point, then 2 points) is not the
descending score order. -/
def gameC8 : Game :=
  { quiz := { questions := [oneChoiceQuestion] }, currentQuestion := 0,
    players := [{ id := 0, name := "a", points := 1, lastAwardedPoints := 0, answered := false },
                { id := 1, name := "b", points := 2, lastAwardedPoints := 0, answered := false }],
    ended := false, time := 9, state := GameState.IntermissionState }

/-- Play phase, three players, two of whom have already answered; the
countdown still shows 5 seconds. -/
def gameC9 : Game :=
  { quiz := { questions := [oneChoiceQuestion] }, currentQuestion := 0,
    players := [{ id := 0, name := "a", points := 10, lastAwardedPoints := 5, answered := true },
                { id := 1, name := "b", points := 20, lastAwardedPoints := 6, answered := true },
                { id := 2, name := "c", points := 0, lastAwardedPoints := 0, answered := false }],
    ended := false, time := 5, state := GameState.PlayState }

/-- The question of `gameC10`: two choices, the second one correct. -/
def questionC10 : QuizQuestion :=
  { time := 10, choices := [{ correct := false }, { correct := true }] }

/-- Play phase on a two-choice question, sole player unanswered. -/
def gameC10 : Game :=
  { quiz := { questions := [questionC10] }, currentQuestion := 0,
    players := [{ id := 0, name := "a", points := 40, lastAwardedPoints := 7, answered := false }],
    ended := false, time := 6, state := GameState.PlayState }

namespace Game

theorem reveal_fst_players (g : Game) :
    (g.Reveal).1.players
      = g.players.map fun p => if p.answered then p else { p with lastAwardedPoints := 0 } :=
  rfl

theorem reveal_fst_state (g : Game) : (g.Reveal).1.state = GameState.RevealState := rfl

theorem reveal_fst_time (g : Game) : (g.Reveal).1.time = 7 := rfl

theorem reveal_fst_currentQuestion (g : Game) :
    (g.Reveal).1.currentQuestion = g.currentQuestion := rfl

theorem reveal_fst_ended (g : Game) : (g.Reveal).1.ended = g.ended := rfl

theorem reveal_fst_quiz (g : Game) : (g.Reveal).1.quiz = g.quiz := rfl

theorem mem_updatePlayer {ps : List Player} {pid : Nat} {f : Player → Player} {p : Player}
    (hp : p ∈ updatePlayer ps pid f) :
    ∃ q, q ∈ ps ∧ (if q.id = pid then f q else q) = p := by
  simpa [updatePlayer, List.mem_map] using hp

theorem map_points_updatePlayer (ps : List Player) (pid : Nat) (f : Player → Player)
    (hf : ∀ p, (f p).points = p.points) :
    (updatePlayer ps pid f).map Player.points = ps.map Player.points := by
  unfold updatePlayer
  induction ps with
  | nil => rfl
  | cons p ps ih => by_cases h : p.id = pid <;> simp [h, hf p, ih]

theorem map_points_reveal_players (ps : List Player) :
    ((ps.map fun p => if p.answered then p else { p with lastAwardedPoints := 0 }).map
        Player.points)
      = ps.map Player.points := by
  induction ps with
  | nil => rfl
  | cons p ps ih => by_cases h : p.answered <;> simp [h, ih]

theorem sendAll_eq (fails : Recipient → Bool) (rs : List Recipient) :
    sendAll fails rs
      = (rs.takeWhile (fun r => !fails r) ++ (rs.dropWhile (fun r => !fails r)).take 1,
         rs.all fun r => !fails r) := by
  induction rs with
  | nil => rfl
  | cons r rs ih =>
    by_cases h : fails r
    · simp [sendAll, h, List.takeWhile_cons, List.dropWhile_cons]
    · simp [sendAll, h, List.takeWhile_cons, List.dropWhile_cons, ih]

end Game

/-- Claim C1: the claim asserts the scoring path fires only when the
player's answered flag is not yet set, so a second submission adds no
points.  Evaluating `OnPlayerAnswer` twice at the failing input (sole
player, one correct choice, 9 seconds left) shows the code re-scores:
the first submission awards 5144 and sets the answered flag, and the
second — despite the flag — adds a further 4112, for a total of 9256. -/
theorem C1_second_submission_scores_again :
    (gameC1.OnPlayerAnswer 0 0).1.players.map Player.points = [5144]
    ∧ (gameC1.OnPlayerAnswer 0 0).1.players.map Player.answered = [true]
    ∧ ((gameC1.OnPlayerAnswer 0 0).1.OnPlayerAnswer 0 0).1.players.map Player.points = [9256] := by
  decide

/-- Claim C3, counterexample: with two players and a failing connection for
player 0, `BroadcastPacket` attempts the send to player 0, fails, and
returns at once: neither player 1 nor the host is sent the message,
refuting independent per-recipient delivery. -/
theorem C3_counterexample :
    (gameC3.BroadcastPacket failsPlayerZero true).1 = [Recipient.player 0]
    ∧ Recipient.player 1 ∉ (gameC3.BroadcastPacket failsPlayerZero true).1
    ∧ Recipient.host ∉ (gameC3.BroadcastPacket failsPlayerZero true).1
    ∧ (gameC3.BroadcastPacket failsPlayerZero true).2 = false := by
  decide

/-- Claim C3 as amended: a broadcast walks the roster in order (host last
when included); the recipients strictly before the first failing
connection are sent the message, the failing connection is attempted,
and every recipient after it is skipped — the error aborts the rest of
the broadcast, and the loop reports success exactly when no send
fails. -/
theorem C3_broadcast_aborts_at_first_failure (g : Game) (fails : Recipient → Bool)
    (includeHost : Bool) :
    g.BroadcastPacket fails includeHost
      = ((g.broadcastRecipients includeHost).takeWhile (fun r => !fails r)
           ++ ((g.broadcastRecipients includeHost).dropWhile (fun r => !fails r)).take 1,
         (g.broadcastRecipients includeHost).all fun r => !fails r) :=
  Game.sendAll_eq fails _

/-- Claim C4: the outbound tag table of the codec: only `QuestionShowPacket`
(tag 2) among the server-to-client kinds is registered; encoding the
`PhaseChanged`, `Leaderboard`, `PlayerJoined`, `PlayerLeft`,
`AnswerResult` (player reveal) and `CountdownTick` packets — all of
which the game session sends — fails with the encode error, refuting
the claim that every outbound kind encodes successfully. -/
theorem C4_codec_outbound_tags :
    packetToPacketId PacketType.QuestionShowPacket = Except.ok 2
    ∧ packetToPacketId PacketType.ConnectPacket = Except.ok 0
    ∧ packetToPacketId PacketType.HostGamePacket = Except.ok 1
    ∧ packetToPacketId PacketType.ChangeGameStatePacket = Except.error "invalid packet type"
    ∧ packetToPacketId PacketType.LeaderboardPacket = Except.error "invalid packet type"
    ∧ packetToPacketId PacketType.PlayerJoinPacket = Except.error "invalid packet type"
    ∧ packetToPacketId PacketType.PlayerDisconnectPacket = Except.error "invalid packet type"
    ∧ packetToPacketId PacketType.TickPacket = Except.error "invalid packet type"
    ∧ packetToPacketId PacketType.PlayerRevealPacket = Except.error "invalid packet type"
    ∧ ∀ marshal : PacketType → List Nat,
        PacketToBytes marshal PacketType.ChangeGameStatePacket
          = Except.error "invalid packet type" :=
  ⟨rfl, rfl, rfl, rfl, rfl, rfl, rfl, rfl, rfl, fun _ => rfl⟩

/-- Claim C7, counterexample: with two players tied at 5 points the
leaderboard is `[("a",5), ("b",5)]`, which is not sorted strictly
descending (the second entry is not strictly below the first). -/
theorem C7_counterexample :
    (gameC7.getLeaderboard).2
        = [{ name := "a", points := 5 }, { name := "b", points := 5 }]
    ∧ strictlyDescending (gameC7.getLeaderboard).2 = false := by
  decide

/-- Claim C7 as amended: `getLeaderboard` returns at most 3 entries,
sorted in non-increasing (descending with ties allowed, strict only on
distinct scores) order of points, and is idempotent — calling it again
on the session it returned yields the same entries and the same
session. -/
theorem C7_leaderboard_props (g : Game) :
    (g.getLeaderboard).2.length ≤ 3
    ∧ List.Chain' (fun x y : LeaderboardEntry => y.points ≤ x.points) (g.getLeaderboard).2
    ∧ ((g.getLeaderboard).1.getLeaderboard).2 = (g.getLeaderboard).2
    ∧ ((g.getLeaderboard).1.getLeaderboard).1 = (g.getLeaderboard).1 := by
  have hsorted : List.Sorted Game.playerGe (Game.sortPlayersByPoints g.players) :=
    List.sorted_insertionSort Game.playerGe g.players
  have hidem : Game.sortPlayersByPoints (Game.sortPlayersByPoints g.players)
      = Game.sortPlayersByPoints g.players :=
    List.Sorted.insertionSort_eq hsorted
  refine ⟨?_, ?_, ?_, ?_⟩
  · simp only [Game.getLeaderboard, List.length_map, List.length_take]
    omega
  · have h1 : List.Pairwise Game.playerGe
        ((Game.sortPlayersByPoints g.players).take
          (min 3 (Game.sortPlayersByPoints g.players).length)) :=
      hsorted.sublist (List.take_sublist _ _)
    have h2 : List.Pairwise (fun x y : LeaderboardEntry => y.points ≤ x.points)
        (((Game.sortPlayersByPoints g.players).take
            (min 3 (Game.sortPlayersByPoints g.players).length)).map
          fun p : Player => ({ name := p.name, points := p.points } : LeaderboardEntry)) :=
      List.pairwise_map.mpr h1
    exact h2.chain'
  · simp only [Game.getLeaderboard, hidem]
  · simp only [Game.getLeaderboard, hidem]

/-- Claim C8, counterexample: `getLeaderboard` sorts `g.Players` in
place, so with roster order `[a(1 point), b(2 points)]` the roster
after the call is `[b, a]` — the session state, and in particular the
roster order, has changed. -/
theorem C8_counterexample :
    gameC8.players.map Player.id = [0, 1]
    ∧ (gameC8.getLeaderboard).1.players.map Player.id = [1, 0]
    ∧ (gameC8.getLeaderboard).1 ≠ gameC8 := by
  decide

/-- Claim C8 as amended: `getLeaderboard` computes a projection of the
players but is not state-free — it reorders the roster in place into
descending-points order.  The roster after the call is a permutation
of the roster before it (same members, same per-player fields) and no
other session field changes. -/
theorem C8_leaderboard_sorts_roster_in_place (g : Game) :
    (g.getLeaderboard).1 = { g with players := Game.sortPlayersByPoints g.players }
    ∧ (g.getLeaderboard).1.players.Perm g.players
    ∧ (g.getLeaderboard).1.quiz = g.quiz
    ∧ (g.getLeaderboard).1.currentQuestion = g.currentQuestion
    ∧ (g.getLeaderboard).1.ended = g.ended
    ∧ (g.getLeaderboard).1.time = g.time
    ∧ (g.getLeaderboard).1.state = g.state :=
  ⟨rfl, List.perm_insertionSort Game.playerGe g.players, rfl, rfl, rfl, rfl, rfl⟩

/-- Claim C2, counterexample: the spec formula awards `5000 +
floor(9×1000/60) = 5150` to a sole correct answerer with 9 seconds
left, but `getPointsReward` computes `g.Time * (1000 / 60)` with Go
integer division — `1000 / 60 = 16` — so the code awards `5000 + 9×16
= 5144`. -/
theorem C2_counterexample :
    specRewardFormula 9 0 = 5150
    ∧ gameC2.getPointsReward = 5144
    ∧ (gameC2.OnPlayerAnswer 0 0).1.players.map Player.points = [5144]
    ∧ (5144 : Int) ≠ 5150 := by
  decide

theorem answerUpdate_of_incorrect (g : Game) (idx : Int)
    (hc : g.isCorrectChoice idx = false) :
    g.answerUpdate idx = fun p => { p with lastAwardedPoints := 0 } := by
  simp [Game.answerUpdate, hc]

theorem points_unchanged_of_incorrect (g : Game) (idx : Int) (pid : Nat)
    (hc : g.isCorrectChoice idx = false) :
    (g.OnPlayerAnswer idx pid).1.players.map Player.points
      = g.players.map Player.points := by
  have hupd := answerUpdate_of_incorrect g idx hc
  have key : (Game.updatePlayer (Game.updatePlayer g.players pid (g.answerUpdate idx)) pid
        fun p => { p with answered := true }).map Player.points
      = g.players.map Player.points := by
    rw [Game.map_points_updatePlayer _ pid (fun p => { p with answered := true })
        fun p => rfl,
      Game.map_points_updatePlayer _ pid (g.answerUpdate idx) fun p => by simp [hupd]]
  simp only [Game.OnPlayerAnswer]
  split
  · rw [Game.reveal_fst_players, Game.map_points_reveal_players]
    exact key
  · exact key

/-- Claim C2 as amended: the reward is `max(0, 5000 − 1000×min(4, n))
+ 16×s` where `n` is the count of players already answered and `s` the
seconds remaining — the per-second factor is Go's integer quotient
`1000 / 60 = 16`, applied to the whole seconds, not
`floor(s×1000/60)`; the sole-player example yields 5144, not 5150.  An
incorrect answer still awards 0: no player's cumulative score
changes. -/
theorem C2_reward_sixteen_per_second (g : Game) (idx : Int) (pid : Nat)
    (hc : g.isCorrectChoice idx = false) :
    g.getPointsReward
        = max 0 (5000 - 1000 * min 4 (((g.players.filter fun p => p.answered).length : Int)))
          + 16 * g.time
    ∧ (g.OnPlayerAnswer idx pid).1.players.map Player.points
        = g.players.map Player.points := by
  constructor
  · simp only [Game.getPointsReward, Game.getAnsweredPlayers]
    have h60 : ((1000 : Int) / 60) = 16 := by norm_num
    rw [h60]
    omega
  · exact points_unchanged_of_incorrect g idx pid hc

/-- Claim C2 witness: the amended reward statement instantiated at the
concrete sole-player session, with choice index 1 (incorrect: the only
choice is index 0). -/
theorem C2_reward_sixteen_per_second_witness :
    gameC2.isCorrectChoice 1 = false
    ∧ (gameC2.getPointsReward
        = max 0 (5000 - 1000 * min 4 (((gameC2.players.filter fun p => p.answered).length : Int)))
          + 16 * gameC2.time
      ∧ (gameC2.OnPlayerAnswer 1 0).1.players.map Player.points
          = gameC2.players.map Player.points) :=
  ⟨by decide, C2_reward_sixteen_per_second gameC2 1 0 (by decide)⟩

theorem answered_after_update (ps : List Player) (pid : Nat) (f : Player → Player)
    (hid : ∀ p, (f p).id = p.id)
    (hothers : ∀ p ∈ ps, p.id ≠ pid → p.answered = true) :
    ∀ p ∈ Game.updatePlayer (Game.updatePlayer ps pid f) pid
        (fun p => { p with answered := true }),
      p.answered = true := by
  intro p hp
  obtain ⟨q1, hq1, hq1e⟩ := Game.mem_updatePlayer hp
  obtain ⟨q, hq, hqe⟩ := Game.mem_updatePlayer hq1
  subst hq1e
  subst hqe
  by_cases h : q.id = pid
  · simp [h, hid]
  · simp [h, hid, hothers q hq h]

theorem getAnsweredPlayers_length_of_all {g : Game}
    (h : ∀ p ∈ g.players, p.answered = true) :
    g.getAnsweredPlayers.length = g.players.length := by
  unfold Game.getAnsweredPlayers
  rw [List.filter_eq_self.mpr]
  intro p hp
  simpa using h p hp

theorem reveal_preserves_all_answered {g : Game}
    (h : ∀ p ∈ g.players, p.answered = true) :
    ∀ p ∈ (g.Reveal).1.players, p.answered = true := by
  intro p hp
  rw [Game.reveal_fst_players] at hp
  obtain ⟨q, hq, hqe⟩ := List.mem_map.mp hp
  subst hqe
  simp [h q hq]

/-- Claim C9: while every other roster member has already answered, the
handling of the remaining player's submission itself moves the session
to Reveal — `OnPlayerAnswer` checks the all-answered condition
synchronously and calls `Reveal` without waiting for the countdown —
and afterwards every player carries `answered = true`, so the
last-awarded points of every player were assigned during this
question. -/
theorem C9_last_answer_reveals_immediately (g : Game) (pid : Nat) (choice : Int)
    (hplay : g.state = GameState.PlayState)
    (hne : g.players ≠ [])
    (hothers : ∀ p ∈ g.players, p.id ≠ pid → p.answered = true) :
    (g.OnPlayerAnswer choice pid).1.state = GameState.RevealState
    ∧ ∀ p ∈ (g.OnPlayerAnswer choice pid).1.players, p.answered = true := by
  have hid : ∀ p, (g.answerUpdate choice p).id = p.id := by
    intro p
    unfold Game.answerUpdate
    split <;> rfl
  have hall := answered_after_update g.players pid (g.answerUpdate choice) hid hothers
  have hcond : (Game.getAnsweredPlayers { g with
          players := Game.updatePlayer
            (Game.updatePlayer g.players pid (g.answerUpdate choice)) pid
            fun p => { p with answered := true } }).length
      = (Game.updatePlayer (Game.updatePlayer g.players pid (g.answerUpdate choice)) pid
          fun p => { p with answered := true }).length :=
    getAnsweredPlayers_length_of_all hall
  have hrun : g.OnPlayerAnswer choice pid = Game.Reveal { g with
          players := Game.updatePlayer
            (Game.updatePlayer g.players pid (g.answerUpdate choice)) pid
            fun p => { p with answered := true } } := by
    simp only [Game.OnPlayerAnswer]
    split
    · rfl
    · exact absurd hcond ‹_›
  rw [hrun]
  exact ⟨Game.reveal_fst_state _, reveal_preserves_all_answered hall⟩

/-- Claim C9 witness: three players, two already answered; the third
(id 2) submits and the session is in Reveal with every flag set. -/
theorem C9_last_answer_reveals_immediately_witness :
    gameC9.state = GameState.PlayState
    ∧ gameC9.players ≠ []
    ∧ ((gameC9.OnPlayerAnswer 0 2).1.state = GameState.RevealState
       ∧ ∀ p ∈ (gameC9.OnPlayerAnswer 0 2).1.players, p.answered = true) :=
  ⟨rfl, by decide,
    C9_last_answer_reveals_immediately gameC9 2 0 rfl (by decide) (by decide)⟩

theorem law_zero_core (g : Game) (idx : Int) (pid : Nat) (ps : List Player)
    (hc : g.isCorrectChoice idx = false) :
    ∀ p ∈ Game.updatePlayer (Game.updatePlayer ps pid (g.answerUpdate idx)) pid
        (fun p => { p with answered := true }),
      p.id = pid → p.lastAwardedPoints = 0 := by
  have hupd := answerUpdate_of_incorrect g idx hc
  intro p hp hpid
  obtain ⟨q1, hq1, hq1e⟩ := Game.mem_updatePlayer hp
  obtain ⟨q, hq, hqe⟩ := Game.mem_updatePlayer hq1
  subst hq1e
  subst hqe
  by_cases h : q.id = pid
  · simp [h, hupd]
  · simp only [if_neg h] at hpid ⊢
    exact absurd hpid h

theorem reveal_preserves_law_zero {g : Game} {pid : Nat}
    (h : ∀ p ∈ g.players, p.id = pid → p.lastAwardedPoints = 0) :
    ∀ p ∈ (g.Reveal).1.players, p.id = pid → p.lastAwardedPoints = 0 := by
  intro p hp hpid
  rw [Game.reveal_fst_players] at hp
  obtain ⟨q, hq, hqe⟩ := List.mem_map.mp hp
  subst hqe
  by_cases hqa : q.answered
  · simp only [if_pos hqa] at hpid ⊢
    exact h q hq hpid
  · simp only [if_neg hqa] at hpid ⊢

theorem law_zero_of_incorrect (g : Game) (idx : Int) (pid : Nat)
    (hc : g.isCorrectChoice idx = false) :
    ∀ p ∈ (g.OnPlayerAnswer idx pid).1.players, p.id = pid → p.lastAwardedPoints = 0 := by
  simp only [Game.OnPlayerAnswer]
  split
  · exact reveal_preserves_law_zero (law_zero_core g idx pid g.players hc)
  · exact law_zero_core g idx pid g.players hc

/-- Claim C10: an out-of-range (or negative) choice index is never an
error — `isCorrectChoice` guards the index before any list access and
returns `false`, so the submission is scored as simply incorrect: the
answering player's last award is set to 0 and no player's cumulative
score changes. -/
theorem C10_out_of_range_is_incorrect (g : Game) (q : QuizQuestion) (idx : Int) (pid : Nat)
    (hq : g.getCurrentQuestion = some q)
    (hidx : idx < 0 ∨ (q.choices.length : Int) ≤ idx) :
    g.isCorrectChoice idx = false
    ∧ (g.OnPlayerAnswer idx pid).1.players.map Player.points = g.players.map Player.points
    ∧ ∀ p ∈ (g.OnPlayerAnswer idx pid).1.players, p.id = pid → p.lastAwardedPoints = 0 := by
  have hc : g.isCorrectChoice idx = false := by
    simp only [Game.isCorrectChoice, hq]
    rw [dif_pos hidx]
  exact ⟨hc, points_unchanged_of_incorrect g idx pid hc, law_zero_of_incorrect g idx pid hc⟩

/-- Claim C10 witness: the two-choice question with indices 5 and −1,
both scored incorrect with 0 awarded and scores unchanged. -/
theorem C10_out_of_range_is_incorrect_witness :
    gameC10.getCurrentQuestion = some questionC10
    ∧ (gameC10.isCorrectChoice 5 = false
       ∧ (gameC10.OnPlayerAnswer 5 0).1.players.map Player.points
           = gameC10.players.map Player.points
       ∧ ∀ p ∈ (gameC10.OnPlayerAnswer 5 0).1.players,
           p.id = 0 → p.lastAwardedPoints = 0)
    ∧ (gameC10.isCorrectChoice (-1) = false
       ∧ (gameC10.OnPlayerAnswer (-1) 0).1.players.map Player.points
           = gameC10.players.map Player.points
       ∧ ∀ p ∈ (gameC10.OnPlayerAnswer (-1) 0).1.players,
           p.id = 0 → p.lastAwardedPoints = 0) :=
  ⟨rfl,
    C10_out_of_range_is_incorrect gameC10 questionC10 5 0 rfl (by decide),
    C10_out_of_range_is_incorrect gameC10 questionC10 (-1) 0 rfl (by decide)⟩

theorem skip_play_eq (g : Game) (hstate : g.state = GameState.PlayState) :
    g.Skip = Game.Reveal { g with
        players := g.players.map fun p =>
          if p.answered then p else { p with lastAwardedPoints := 0, answered := true } } := by
  simp only [Game.Skip, hstate]

theorem tick_play_eq (g : Game) (hstate : g.state = GameState.PlayState)
    (htime : g.time = 1) :
    g.Tick = ((Game.Reveal { g with time := 0 }).1,
      [(Recipient.host, Packet.tick 0)] ++ (Game.Reveal { g with time := 0 }).2) := by
  simp only [Game.Tick, htime, hstate]
  norm_num

theorem skipped_players_eq (ps : List Player) :
    (((ps.map fun p =>
          if p.answered then p else { p with lastAwardedPoints := 0, answered := true }).map
        fun p => if p.answered then p else { p with lastAwardedPoints := 0 }).map
        fun p => { p with answered := false })
      = ((ps.map fun p => if p.answered then p else { p with lastAwardedPoints := 0 }).map
          fun p => { p with answered := false }) := by
  induction ps with
  | nil => rfl
  | cons p ps ih =>
    simp only [List.map_cons, List.cons.injEq]
    refine ⟨?_, ih⟩
    by_cases h : p.answered <;> simp [h]

theorem skipped_players_all_answered (ps : List Player) :
    ∀ p ∈ ((ps.map fun p =>
          if p.answered then p else { p with lastAwardedPoints := 0, answered := true }).map
        fun p => if p.answered then p else { p with lastAwardedPoints := 0 }),
      p.answered = true := by
  intro p hp
  obtain ⟨q1, hq1, hq1e⟩ := List.mem_map.mp hp
  obtain ⟨q, hq, hqe⟩ := List.mem_map.mp hq1
  subst hq1e
  subst hqe
  by_cases h : q.answered <;> simp [h]

theorem reveal_map_answered (ps : List Player) :
    ((ps.map fun p => if p.answered then p else { p with lastAwardedPoints := 0 }).map
        Player.answered)
      = ps.map Player.answered := by
  induction ps with
  | nil => rfl
  | cons p ps ih => by_cases h : p.answered <;> simp [h, ih]

/-- Claim C5, counterexample: from Play with one unanswered player,
`Skip` and the countdown-timeout path (`Tick` at 1 second) do not end
in the same state — `Skip` additionally marks the unanswered player
answered (`answered = true`), while the timeout path leaves
`answered = false`. -/
theorem C5_counterexample :
    (gameC5.Skip).1.players.map Player.answered = [true]
    ∧ (gameC5.Tick).1.players.map Player.answered = [false]
    ∧ (gameC5.Skip).1.players.map Player.lastAwardedPoints = [0]
    ∧ (gameC5.Tick).1.players.map Player.lastAwardedPoints = [0]
    ∧ (gameC5.Skip).1 ≠ (gameC5.Tick).1 := by
  decide

/-- Claim C5 as amended: a host `Skip` from Play forces every
unanswered player's last award to 0 before revealing, and produces the
same final state as the natural countdown timeout in every respect —
phase, timer, question index, terminal flag, quiz, and every player
field — except the per-question answered flag: `Skip` marks the
unanswered players answered, the timeout path leaves their flags
untouched. -/
theorem C5_skip_play_equiv_timeout (g : Game)
    (hstate : g.state = GameState.PlayState) (htime : g.time = 1) :
    (g.Skip).1.state = (g.Tick).1.state
    ∧ (g.Skip).1.time = (g.Tick).1.time
    ∧ (g.Skip).1.currentQuestion = (g.Tick).1.currentQuestion
    ∧ (g.Skip).1.ended = (g.Tick).1.ended
    ∧ (g.Skip).1.quiz = (g.Tick).1.quiz
    ∧ ((g.Skip).1.players.map fun p => { p with answered := false })
        = ((g.Tick).1.players.map fun p => { p with answered := false })
    ∧ (∀ p ∈ (g.Skip).1.players, p.answered = true)
    ∧ (g.Tick).1.players.map Player.answered = g.players.map Player.answered := by
  rw [skip_play_eq g hstate, tick_play_eq g hstate htime]
  refine ⟨rfl, rfl, rfl, rfl, rfl, ?_, ?_, ?_⟩
  · rw [Game.reveal_fst_players, Game.reveal_fst_players]
    exact skipped_players_eq g.players
  · rw [Game.reveal_fst_players]
    exact skipped_players_all_answered g.players
  · rw [Game.reveal_fst_players]
    exact reveal_map_answered g.players

/-- Claim C5 witness: the amended Skip-versus-timeout statement at the
concrete one-player Play session with 1 second remaining. -/
theorem C5_skip_play_equiv_timeout_witness :
    gameC5.state = GameState.PlayState
    ∧ gameC5.time = 1
    ∧ ((gameC5.Skip).1.state = (gameC5.Tick).1.state
       ∧ (gameC5.Skip).1.time = (gameC5.Tick).1.time
       ∧ (gameC5.Skip).1.currentQuestion = (gameC5.Tick).1.currentQuestion
       ∧ (gameC5.Skip).1.ended = (gameC5.Tick).1.ended
       ∧ (gameC5.Skip).1.quiz = (gameC5.Tick).1.quiz
       ∧ ((gameC5.Skip).1.players.map fun p => { p with answered := false })
           = ((gameC5.Tick).1.players.map fun p => { p with answered := false })
       ∧ (∀ p ∈ (gameC5.Skip).1.players, p.answered = true)
       ∧ (gameC5.Tick).1.players.map Player.answered
           = gameC5.players.map Player.answered) :=
  ⟨rfl, rfl, C5_skip_play_equiv_timeout gameC5 rfl rfl⟩

theorem end_of_ended (g : Game) (h : g.ended = true) : g.End = (g, []) := by
  simp [Game.End, h]

theorem end_fst_ended (g : Game) : (g.End).1.ended = true := by
  by_cases h : g.ended
  · rw [end_of_ended g h]
    exact h
  · simp [Game.End, h, Game.ChangeState, Game.getLeaderboard]

theorem filter_isLB_pairs (pkt : Packet) (rs : List Recipient) :
    ((rs.map fun r => (r, pkt)).filter fun m => m.2.isLeaderboard)
      = if pkt.isLeaderboard then rs.map fun r => (r, pkt) else [] := by
  induction rs with
  | nil => simp
  | cons r rs ih => by_cases hp : pkt.isLeaderboard <;> simp [hp, ih, List.filter_cons]

theorem map_fst_pairs (pkt : Packet) (rs : List Recipient) :
    ((rs.map fun r => (r, pkt)).map Prod.fst) = rs := by
  induction rs with
  | nil => rfl
  | cons r rs ih => simp [ih]

/-- Claim C6: `End` is guarded by the terminal flag — when the flag is
set it is a no-op (state unchanged, nothing sent), running `End` a
second time after any first run is a no-op, and on the first entry
(flag not yet set) the final-leaderboard broadcast goes to every
roster member (in their post-sort order) and to the host, exactly
once. -/
theorem C6_end_reached_once (g : Game) :
    (g.ended = true → g.End = (g, []))
    ∧ (g.End).1.End = ((g.End).1, [])
    ∧ (g.ended = false →
        ((g.End).2.filter fun m => m.2.isLeaderboard).map Prod.fst
          = (Game.sortPlayersByPoints g.players).map (fun p => Recipient.player p.id)
            ++ [Recipient.host]) := by
  refine ⟨end_of_ended g, end_of_ended _ (end_fst_ended g), ?_⟩
  intro h
  simp only [Game.End, h, Bool.false_eq_true, if_false, Game.ChangeState,
    Game.getLeaderboard, Game.broadcastMsgs, Game.broadcastRecipients,
    List.filter_append]
  rw [filter_isLB_pairs, filter_isLB_pairs]
  simp [map_fst_pairs, Packet.isLeaderboard]

/-- Claim C6 witness: the End guard evaluated at a session with the
terminal flag set (no-op) and at a live session (second run is a
no-op; leaderboard broadcast recipients are the sorted roster plus the
host). -/
theorem C6_end_reached_once_witness :
    gameC6e.End = (gameC6e, [])
    ∧ (gameC6.End).1.End = ((gameC6.End).1, [])
    ∧ ((gameC6.End).2.filter fun m => m.2.isLeaderboard).map Prod.fst
        = (Game.sortPlayersByPoints gameC6.players).map (fun p => Recipient.player p.id)
          ++ [Recipient.host] :=
  ⟨(C6_end_reached_once gameC6e).1 rfl, (C6_end_reached_once gameC6).2.1,
    (C6_end_reached_once gameC6).2.2 rfl⟩

end QuizProj
